import Mathlib

/-!
Shallow embedding of the k8s-probe-monitor dashboard core (main.go):
the data model (`PodInfo`, `ProbeStatus`, `PodStatusInfo`), the shared
pod map of `Dashboard`, the reconciliation pass `updatePodStatuses`,
the remote status fetch `getPodInfo`, and the action relay `handleProxy`.
External collaborators (the Kubernetes list API, the network, JSON
decoding by the standard library) are modelled as explicit inputs:
each function takes the outcome of its external calls as a parameter.
-/

namespace ProbeMonitor

/-- The three probe flags reported by a pod (source: `ProbeStatus`, main.go:47-51). -/
structure ProbeStatus where
  Started : Bool
  Live : Bool
  Ready : Bool
deriving DecidableEq

/-- Self-reported pod data decoded from the instance status endpoint
(source: `PodInfo`, main.go:36-45). `int64`/`int` become `Int`. -/
structure PodInfo where
  PodName : String
  PodIP : String
  NodeHostname : String
  ContainerAge : Int
  StartTime : String
  ProbeStatus : ProbeStatus
  StartupDelay : Int
  StartupReady : String
deriving DecidableEq

/-- One monitored pod's status record (source: `PodStatusInfo`, main.go:53-62).
`Info *PodInfo` (nil-able pointer) becomes `Option PodInfo`; the Go zero
value of `Error` is the empty string; `time.Time` is modelled as a `Nat`
clock reading. -/
structure PodStatusInfo where
  Name : String
  IP : String
  Node : String
  Status : String
  Info : Option PodInfo
  Error : String
  LastCheck : Nat
  ReplicaSetID : String
deriving DecidableEq

/-- The fields of a discovered pod that `updatePodStatuses` reads from the
Kubernetes list result (source: uses of `pod` in main.go:134-162):
`pod.Name`, `pod.Status.PodIP`, `pod.Spec.NodeName`, `pod.Status.Phase`. -/
structure Pod where
  Name : String
  PodIP : String
  NodeName : String
  Phase : String
deriving DecidableEq

/-- The shared pod map `Dashboard.pods : map[string]*PodStatusInfo`
(main.go:65), modelled as a partial map from pod name to record. -/
def Store : Type := String → Option PodStatusInfo

/-- One map write `d.pods[pod.Name] = podStatus` (main.go:165),
performed under `d.mu.Lock()`. -/
def Store.upsert (s : Store) (k : String) (v : PodStatusInfo) : Store :=
  fun name => if name = k then some v else s name

/-- The end-of-cycle prune loop (main.go:170-176): delete every key not in
`currentPods`; the whole loop runs inside one `d.mu.Lock()` critical
section. -/
def Store.prune (s : Store) (currentPods : List String) : Store :=
  fun name => if currentPods.contains name then s name else none

/-- Go's `strings.Split(s, sep)` for a one-character separator: split at
every occurrence of `sep`, keeping empty segments, with `[""]` for the
empty string — the behaviour of `List.splitOn` on the character list. -/
def stringsSplit (s : String) (sep : Char) : List String :=
  (s.toList.splitOn sep).map List.asString

/-- ReplicaSet-ID extraction from the pod name (main.go:137-143): split on
`"-"` and take the second-to-last part when there are at least two parts,
else leave it empty. `List.getD` returns the guarded in-range element
(`parts[len(parts)-2]` in the source). -/
def replicaSetID (name : String) : String :=
  let parts := stringsSplit name '-'
  if parts.length ≥ 2 then parts.getD (parts.length - 2) "" else ""

/-- The group-tag derivation as the spec words it (spec §4.3 step 2):
"splitting its identity on a fixed delimiter and taking the second-to-last
segment if at least two segments exist, else an empty tag". Stated over
the reversed segment list: the second-to-last segment is the second
element from the end. -/
def groupTagSpec (name : String) : String :=
  match (stringsSplit name '-').reverse with
  | _ :: g :: _ => g
  | _ => ""

/-- Construction of one cycle's `PodStatusInfo` for one pod
(main.go:137-162). `fetch` is the outcome of the `d.getPodInfo`
network call made for this pod (the code invokes it once per descriptor,
passing `pod.Status.PodIP`); it is consulted only when the pod is
`Running` with a non-empty IP. `now` is the cycle's `time.Now()` reading. -/
def mkPodStatus (fetch : Pod → Except String PodInfo) (now : Nat) (pod : Pod) :
    PodStatusInfo :=
  let podStatus : PodStatusInfo :=
    { Name := pod.Name
      IP := pod.PodIP
      Node := pod.NodeName
      Status := pod.Phase
      Info := none
      Error := ""
      LastCheck := now
      ReplicaSetID := replicaSetID pod.Name }
  if pod.Phase = "Running" ∧ pod.PodIP ≠ "" then
    match fetch pod with
    | .error e => { podStatus with Error := e }
    | .ok info => { podStatus with Info := some info }
  else podStatus

/-- The per-pod upsert loop of a cycle (main.go:134-167): for each
discovered pod, build its record and write it into the store. Each write
is its own critical section. -/
def applyUpserts (fetch : Pod → Except String PodInfo) (now : Nat)
    (pods : List Pod) (s : Store) : Store :=
  pods.foldl (fun acc p => acc.upsert p.Name (mkPodStatus fetch now p)) s

/-- One reconciliation pass (source: `updatePodStatuses`, main.go:122-177).
`disc` is the outcome of the Kubernetes `List` call: on error the function
returns early with the store untouched (main.go:127-130); on success it
upserts a record per pod and finally prunes every name not discovered
this cycle. -/
def updatePodStatuses (fetch : Pod → Except String PodInfo) (now : Nat)
    (disc : Except String (List Pod)) (s : Store) : Store :=
  match disc with
  | .error _ => s
  | .ok pods => (applyUpserts fetch now pods s).prune (pods.map (·.Name))

/-- The store state a concurrent `snapshot` (the `d.mu.RLock()` copy in
`handleIndex`, main.go:682-687, or `handleAPI`, main.go:719-723) can
observe after the first `n` upserts of an in-progress cycle, before the
prune: the mutex is released between consecutive upserts (main.go:164-166),
so every such prefix state is visible to readers. -/
def midState (fetch : Pod → Except String PodInfo) (now : Nat)
    (pods : List Pod) (s : Store) (n : Nat) : Store :=
  applyUpserts fetch now (pods.take n) s

deriving instance DecidableEq for Except

/-- Outcome of the HTTP GET issued by `getPodInfo` (main.go:186): either
`client.Get` returns an error, or a response arrives carrying a status
code and the result of reading its body (`io.ReadAll`, main.go:196, which
can itself fail mid-transfer). -/
inductive HTTPGetOutcome where
  | connFailure (msg : String)
  | response (statusCode : Nat) (readResult : Except String String)
deriving DecidableEq

/-- The four error returns of `getPodInfo` (main.go:188, 193, 198, 203):
`connectError` is "failed to connect: %v", `statusError` is "unexpected
status code: %d", `readError` is "failed to read response: %v",
`parseError` is "failed to parse JSON: %v" (carrying the body that failed
to decode). `connectError` and `readError` are both connectivity-class
failures: the request could not be sent, respectively not completed. -/
inductive FetchError where
  | connectError (msg : String)
  | statusError (code : Nat)
  | readError (msg : String)
  | parseError (body : String)
deriving DecidableEq

/-- The status fetch `getPodInfo` (main.go:179-207): on connection error
report it; then reject any status other than 200 (`http.StatusOK`); then
report a body-read failure; then decode the body (`json.Unmarshal`,
modelled by the `decode` parameter) and reject undecodable bodies;
otherwise return the decoded `PodInfo`. -/
def getPodInfo (decode : String → Option PodInfo) (outcome : HTTPGetOutcome) :
    Except FetchError PodInfo :=
  match outcome with
  | .connFailure msg => .error (.connectError msg)
  | .response statusCode readResult =>
    if statusCode ≠ 200 then .error (.statusError statusCode)
    else
      match readResult with
      | .error msg => .error (.readError msg)
      | .ok body =>
        match decode body with
        | none => .error (.parseError body)
        | some info => .ok info

/-- The decoded body of an inbound `/api/proxy` request (main.go:732-735). -/
structure ProxyRequestBody where
  url : String
  method : String
deriving DecidableEq

/-- Outcome of `client.Do(proxyReq)` (main.go:752): transport failure or a
remote response with status code and raw body. -/
inductive DoOutcome where
  | failure (msg : String)
  | response (statusCode : Nat) (body : String)
deriving DecidableEq

/-- What a handler writes back: a status code and a body. -/
structure HTTPResponse where
  status : Nat
  body : String
deriving DecidableEq

/-- Go's `http.Error(w, msg, code)`: sets the status code and writes the
message followed by a newline. -/
def httpError (msg : String) (code : Nat) : HTTPResponse :=
  { status := code, body := msg ++ "\n" }

/-- The action relay `handleProxy` (main.go:726-761). Inputs are the
caller's HTTP method, the result of decoding the request body
(`json.Decode`, main.go:737: `none` when malformed), whether
`http.NewRequest(req.Method, req.URL, nil)` succeeds for the decoded
method/url pair (main.go:746), and the outcome of `client.Do`
(main.go:752). Returns the response written to the caller and a flag
recording whether the network call `client.Do` was performed. The handler
never touches the pod store, so it takes no `Store` argument. -/
def handleProxy (method : String) (decodedBody : Option ProxyRequestBody)
    (newRequestOk : String → String → Bool) (doOutcome : DoOutcome) :
    HTTPResponse × Bool :=
  if method ≠ "POST" then (httpError "Method not allowed" 405, false)
  else
    match decodedBody with
    | none => (httpError "Invalid request body" 400, false)
    | some req =>
      if newRequestOk req.method req.url = false then
        (httpError "Failed to create request" 500, false)
      else
        match doOutcome with
        | .failure msg =>
          (httpError ("Failed to call pod API: " ++ msg) 500, true)
        | .response statusCode body => ({ status := statusCode, body := body }, true)

/-! ## Sample values used by witnesses and counterexamples -/

/-- A sample decoded `PodInfo`. -/
def samplePodInfo : PodInfo :=
  { PodName := "web-7f8c9d-abcde"
    PodIP := "10.0.0.5"
    NodeHostname := "node-1"
    ContainerAge := 120
    StartTime := "2026-01-01T00:00:00Z"
    ProbeStatus := { Started := true, Live := true, Ready := false }
    StartupDelay := 10
    StartupReady := "ready" }

/-- A running pod with an IP. -/
def podRunningA : Pod :=
  { Name := "web-7f8c9d-abcde", PodIP := "10.0.0.5", NodeName := "node-1",
    Phase := "Running" }

/-- A second running pod with an IP. -/
def podRunningB : Pod :=
  { Name := "web-7f8c9d-fghij", PodIP := "10.0.0.6", NodeName := "node-2",
    Phase := "Running" }

/-- A pending pod with no IP. -/
def podPending : Pod :=
  { Name := "web-7f8c9d-zzzzz", PodIP := "", NodeName := "", Phase := "Pending" }

/-- A pod discovered in an earlier cycle and gone in later ones. -/
def podOld : Pod :=
  { Name := "old-1-x", PodIP := "10.0.0.9", NodeName := "node-9",
    Phase := "Running" }

/-- A fetch environment in which every status request succeeds. -/
def fetchAllOk : Pod → Except String PodInfo := fun _ => .ok samplePodInfo

/-- A fetch environment in which every status request fails. -/
def fetchAllFail : Pod → Except String PodInfo :=
  fun _ => .error "failed to connect: timeout"

/-- A fetch environment failing exactly for `podRunningA`. -/
def fetchFailA : Pod → Except String PodInfo :=
  fun p => if p = podRunningA then .error "failed to connect: timeout"
           else .ok samplePodInfo

/-- The store at process start: `make(map[string]*PodStatusInfo)`. -/
def emptyStore : Store := fun _ => none

/-- The record built for `podOld` by a cycle at clock `0` whose fetch
failed. -/
def staleRecord : PodStatusInfo := mkPodStatus fetchAllFail 0 podOld

/-- The store produced by a completed first cycle that discovered only
`podOld`: it holds exactly `staleRecord` under `"old-1-x"`. -/
def staleStore : Store :=
  updatePodStatuses fetchAllFail 0 (.ok [podOld]) emptyStore

/-! ## Theorems -/

/-- Taking the element at index `length - 2` (guarded by `length ≥ 2`) is
taking the second element of the reversed list. -/
lemma getD_length_sub_two_eq_reverse (parts : List String) :
    (if parts.length ≥ 2 then parts.getD (parts.length - 2) "" else "") =
      (match parts.reverse with
        | _ :: g :: _ => g
        | _ => "") := by
  match h : parts.reverse with
  | [] =>
    have hp : parts = [] := List.reverse_eq_nil_iff.mp h
    subst hp; simp
  | [x] =>
    have hp : parts = [x] := by
      have hrr := congrArg List.reverse h
      simpa using hrr
    subst hp; simp
  | x :: g :: t =>
    have hp : parts = t.reverse ++ [g, x] := by
      have hrr := congrArg List.reverse h
      simp only [List.reverse_reverse, List.reverse_cons] at hrr
      simpa [List.append_assoc] using hrr
    subst hp
    have hlen : (t.reverse ++ [g, x]).length = t.length + 2 := by
      simp
    have hidx : (t.reverse ++ [g, x]).getD (t.length + 2 - 2) "" = g := by
      have hle : t.reverse.length ≤ t.length := by simp
      simp only [List.getD_eq_getElem?_getD, Nat.add_sub_cancel]
      rw [List.getElem?_append_right hle]
      simp
    rw [hlen, hidx]
    simp

/-- C3: the group tag (`replicaSetID`) is obtained by splitting the pod
name on `"-"` and taking the second-to-last segment when at least two
segments exist, the empty string otherwise; in particular
`"web-7f8c9d-abcde"` yields `"7f8c9d"` and `"single"` yields `""`. -/
theorem claim_C3_group_tag_derivation :
    (∀ name : String, replicaSetID name = groupTagSpec name)
    ∧ replicaSetID "web-7f8c9d-abcde" = "7f8c9d"
    ∧ replicaSetID "single" = "" := by
  refine ⟨fun name => ?_, by decide, by decide⟩
  show (if (stringsSplit name '-').length ≥ 2 then
          (stringsSplit name '-').getD ((stringsSplit name '-').length - 2) ""
        else "") = groupTagSpec name
  rw [getD_length_sub_two_eq_reverse]
  rfl

/-- Unfolding one step of the upsert loop. -/
lemma applyUpserts_cons (fetch : Pod → Except String PodInfo) (now : Nat)
    (p : Pod) (rest : List Pod) (s : Store) :
    applyUpserts fetch now (p :: rest) s
      = applyUpserts fetch now rest (s.upsert p.Name (mkPodStatus fetch now p)) := rfl

/-- A key named by no pod in the list is untouched by the upsert loop. -/
lemma applyUpserts_not_mem (fetch : Pod → Except String PodInfo) (now : Nat)
    (l : List Pod) (s : Store) (key : String) (h : key ∉ l.map (·.Name)) :
    applyUpserts fetch now l s key = s key := by
  induction l generalizing s with
  | nil => rfl
  | cons p rest ih =>
    simp only [List.map_cons, List.mem_cons, not_or] at h
    rw [applyUpserts_cons, ih _ h.2]
    simp [Store.upsert, h.1]

/-- A key named by some pod in the list ends the upsert loop holding the
record built for one of the pods carrying that name. -/
lemma applyUpserts_mem_exists (fetch : Pod → Except String PodInfo) (now : Nat)
    (l : List Pod) (s : Store) (key : String) (h : key ∈ l.map (·.Name)) :
    ∃ p ∈ l, p.Name = key
      ∧ applyUpserts fetch now l s key = some (mkPodStatus fetch now p) := by
  induction l generalizing s with
  | nil => simp at h
  | cons q rest ih =>
    by_cases hm : key ∈ rest.map (·.Name)
    · obtain ⟨p, hp, hname, heq⟩ :=
        ih (s.upsert q.Name (mkPodStatus fetch now q)) hm
      exact ⟨p, List.mem_cons_of_mem _ hp, hname, heq⟩
    · have hq : key = q.Name := by
        simp only [List.map_cons, List.mem_cons] at h
        tauto
      refine ⟨q, List.mem_cons_self _ _, hq.symm, ?_⟩
      rw [applyUpserts_cons, applyUpserts_not_mem _ _ _ _ _ hm]
      simp [Store.upsert, hq]

/-- With pairwise-distinct pod names, the upsert loop leaves a member
pod's key holding exactly that pod's freshly built record. -/
lemma applyUpserts_mem_nodup (fetch : Pod → Except String PodInfo) (now : Nat)
    (l : List Pod) (s : Store) (p : Pod)
    (hnd : (l.map (·.Name)).Nodup) (hp : p ∈ l) :
    applyUpserts fetch now l s p.Name = some (mkPodStatus fetch now p) := by
  induction l generalizing s with
  | nil => simp at hp
  | cons q rest ih =>
    simp only [List.map_cons, List.nodup_cons] at hnd
    rcases List.mem_cons.mp hp with hq | hrest
    · subst hq
      rw [applyUpserts_cons, applyUpserts_not_mem _ _ _ _ _ hnd.1]
      simp [Store.upsert]
    · rw [applyUpserts_cons]
      exact ih _ hnd.2 hrest

/-- C1: after a completed cycle (discovery returned `pods` and every
descriptor was processed), the store holds a record for a key exactly
when some discovered pod carries that name: every discovered identity was
upserted and every other identity was pruned. -/
theorem claim_C1_store_equals_discovery (fetch : Pod → Except String PodInfo)
    (now : Nat) (pods : List Pod) (s : Store) (key : String) :
    (updatePodStatuses fetch now (.ok pods) s key).isSome
      ↔ key ∈ pods.map (·.Name) := by
  show (((applyUpserts fetch now pods s).prune (pods.map (·.Name))) key).isSome ↔ _
  by_cases h : key ∈ pods.map (·.Name)
  · obtain ⟨p, _, _, heq⟩ := applyUpserts_mem_exists fetch now pods s key h
    simp [Store.prune, h, heq]
  · simp [Store.prune, h]

/-- C7: a failed discovery aborts the cycle with the store untouched —
the early `return` of main.go:127-130 performs no mutation at all. -/
theorem claim_C7_discovery_failure_no_mutation
    (fetch : Pod → Except String PodInfo) (now : Nat) (e : String) (s : Store) :
    updatePodStatuses fetch now (.error e) s = s := rfl

/-- Every record built in a cycle carries that cycle's clock reading
(`LastCheck: time.Now()`, main.go:150). -/
lemma mkPodStatus_lastCheck (fetch : Pod → Except String PodInfo) (now : Nat)
    (pod : Pod) : (mkPodStatus fetch now pod).LastCheck = now := by
  by_cases h : pod.Phase = "Running" ∧ pod.PodIP ≠ "" <;>
    cases hf : fetch pod <;> simp [mkPodStatus, h, hf]

/-- C9: the stored `LastCheck` of an identity never decreases across
cycles: whenever a cycle running at clock `now` (with `now` at or after
the stamp of the record it replaces, as `time.Now()` guarantees) leaves a
record for a key that already had one, the new stamp is no earlier. -/
theorem claim_C9_lastcheck_monotonic (fetch : Pod → Except String PodInfo)
    (now : Nat) (disc : Except String (List Pod)) (s : Store) (key : String)
    (r r' : PodStatusInfo) (hold : s key = some r)
    (hnew : updatePodStatuses fetch now disc s key = some r')
    (hclock : r.LastCheck ≤ now) :
    r.LastCheck ≤ r'.LastCheck := by
  match disc with
  | .error e =>
    have hnew' : s key = some r' := hnew
    rw [hold] at hnew'
    rw [← Option.some.inj hnew']
  | .ok pods =>
    have hnew' :
        ((applyUpserts fetch now pods s).prune (pods.map (·.Name))) key
          = some r' := hnew
    by_cases hmem : key ∈ pods.map (·.Name)
    · obtain ⟨p, hp, hname, heq⟩ :=
        applyUpserts_mem_exists fetch now pods s key hmem
      have hval : some (mkPodStatus fetch now p) = some r' := by
        rw [← heq]
        simpa [Store.prune, hmem] using hnew'
      rw [← Option.some.inj hval, mkPodStatus_lastCheck]
      exact hclock
    · exact absurd hnew' (by simp [Store.prune, hmem])

/-- Witness for C9 at a concrete two-cycle history: `staleStore` holds a
record for `"old-1-x"` stamped `0`; a second cycle at clock `5`
rediscovers the pod and the stored stamp does not decrease. -/
theorem claim_C9_witness :
    staleStore "old-1-x" = some staleRecord
    ∧ updatePodStatuses fetchAllOk 5 (.ok [podOld]) staleStore "old-1-x"
        = some (mkPodStatus fetchAllOk 5 podOld)
    ∧ staleRecord.LastCheck ≤ (mkPodStatus fetchAllOk 5 podOld).LastCheck :=
  ⟨by decide, by decide,
    claim_C9_lastcheck_monotonic fetchAllOk 5 (.ok [podOld]) staleStore
      "old-1-x" staleRecord (mkPodStatus fetchAllOk 5 podOld)
      (by decide) (by decide) (by decide)⟩

/-- C2: a cycle's record never carries both a decoded `Info` and a
non-empty `Error` (main.go:155-162 populates exactly one), and a pod not
in phase `"Running"` or without an IP gets a record with neither — and
its record is independent of the fetch environment, i.e. no fetch is
attempted for it. -/
theorem claim_C2_info_error_exclusive
    (fetch fetch' : Pod → Except String PodInfo) (now : Nat) (pod : Pod) :
    (¬((mkPodStatus fetch now pod).Info.isSome
        ∧ (mkPodStatus fetch now pod).Error ≠ ""))
    ∧ (¬(pod.Phase = "Running" ∧ pod.PodIP ≠ "") →
        (mkPodStatus fetch now pod).Info = none
        ∧ (mkPodStatus fetch now pod).Error = ""
        ∧ mkPodStatus fetch now pod = mkPodStatus fetch' now pod) := by
  by_cases h : pod.Phase = "Running" ∧ pod.PodIP ≠ ""
  · refine ⟨?_, fun hc => absurd h hc⟩
    cases hf : fetch pod <;> simp [mkPodStatus, h, hf]
  · refine ⟨?_, fun _ => ?_⟩
    · simp [mkPodStatus, h]
    · refine ⟨?_, ?_, ?_⟩ <;> simp [mkPodStatus, h]

/-- Witness for C2 at the pending, address-less pod: its record has no
`Info`, no `Error`, and is the same under an all-success and an
all-failure fetch environment. -/
theorem claim_C2_witness :
    (mkPodStatus fetchAllOk 0 podPending).Info = none
    ∧ (mkPodStatus fetchAllOk 0 podPending).Error = ""
    ∧ mkPodStatus fetchAllOk 0 podPending = mkPodStatus fetchAllFail 0 podPending :=
  (claim_C2_info_error_exclusive fetchAllOk fetchAllFail 0 podPending).2
    (by decide)

/-- C8: per-instance failure isolation as noninterference. If two fetch
environments agree on every pod other than `A`, then any other discovered
pod `B` gets the identical record under both, and (with distinct
discovered names) the completed cycle stores exactly that record for
`B.Name` in both runs. -/
theorem claim_C8_failure_isolation
    (fetch1 fetch2 : Pod → Except String PodInfo) (now : Nat)
    (pods : List Pod) (s : Store) (A B : Pod)
    (hagree : ∀ p, p ≠ A → fetch1 p = fetch2 p)
    (hnd : (pods.map (·.Name)).Nodup) (hB : B ∈ pods) (hBA : B ≠ A) :
    mkPodStatus fetch1 now B = mkPodStatus fetch2 now B
    ∧ updatePodStatuses fetch1 now (.ok pods) s B.Name
        = some (mkPodStatus fetch1 now B)
    ∧ updatePodStatuses fetch2 now (.ok pods) s B.Name
        = some (mkPodStatus fetch2 now B) := by
  have hmem : B.Name ∈ pods.map (·.Name) := List.mem_map_of_mem _ hB
  refine ⟨?_, ?_, ?_⟩
  · unfold mkPodStatus
    rw [hagree B hBA]
  · show ((applyUpserts fetch1 now pods s).prune (pods.map (·.Name))) B.Name = _
    simp [Store.prune, hmem, applyUpserts_mem_nodup fetch1 now pods s B hnd hB]
  · show ((applyUpserts fetch2 now pods s).prune (pods.map (·.Name))) B.Name = _
    simp [Store.prune, hmem, applyUpserts_mem_nodup fetch2 now pods s B hnd hB]

/-- Witness for C8: `fetchAllOk` and `fetchFailA` differ only at
`podRunningA`; pod `podRunningB`, discovered in the same cycle, gets the
identical stored record under both environments. -/
theorem claim_C8_witness :
    mkPodStatus fetchAllOk 3 podRunningB = mkPodStatus fetchFailA 3 podRunningB
    ∧ updatePodStatuses fetchAllOk 3 (.ok [podRunningA, podRunningB])
        emptyStore podRunningB.Name
        = some (mkPodStatus fetchAllOk 3 podRunningB)
    ∧ updatePodStatuses fetchFailA 3 (.ok [podRunningA, podRunningB])
        emptyStore podRunningB.Name
        = some (mkPodStatus fetchFailA 3 podRunningB) :=
  claim_C8_failure_isolation fetchAllOk fetchFailA 3
    [podRunningA, podRunningB] emptyStore podRunningA podRunningB
    (fun p hp => by simp [fetchAllOk, fetchFailA, hp])
    (by decide) (by decide) (by decide)

/-- Counterexample to C4 as stated. The mutex is released after each
single upsert (main.go:164-166) and reacquired only for the prune
(main.go:170-176), so a concurrent snapshot can observe the store right
after the first upsert of an in-progress cycle: `midState ... 1`. In the
concrete history — cycle 1 discovers only `podOld` (end state
`staleStore`), cycle 2 discovers only `podRunningA` — that observable
mid-cycle store differs from the initial store, from cycle 1's end state
(which is also the state immediately before cycle 2's merge began), and
from cycle 2's end state: it mixes cycle 2's upsert with the
not-yet-pruned `"old-1-x"` survivor. -/
theorem claim_C4_counterexample :
    midState fetchAllOk 7 [podRunningA] staleStore 1 ≠ emptyStore
    ∧ midState fetchAllOk 7 [podRunningA] staleStore 1 ≠ staleStore
    ∧ midState fetchAllOk 7 [podRunningA] staleStore 1
        ≠ updatePodStatuses fetchAllOk 7 (.ok [podRunningA]) staleStore := by
  refine ⟨fun h => ?_, fun h => ?_, fun h => ?_⟩
  · exact absurd (congrFun h "old-1-x") (by decide)
  · exact absurd (congrFun h "web-7f8c9d-abcde") (by decide)
  · exact absurd (congrFun h "old-1-x") (by decide)

/-- C4 as amended: snapshots are not cycle-atomic, but they are
record-atomic per identity. When the discovered pod names are pairwise
distinct, every store state a concurrent snapshot can observe during a
cycle — after any prefix of the upserts (`midState`; the post-prune state
is the cycle's end state itself) — agrees at each key with either the
pre-cycle store or the cycle's end state; no third value for a key is
ever visible. -/
theorem claim_C4_per_key_snapshot (fetch : Pod → Except String PodInfo)
    (now : Nat) (pods : List Pod) (s : Store) (n : Nat) (key : String)
    (hnd : (pods.map (·.Name)).Nodup) :
    midState fetch now pods s n key = s key
    ∨ midState fetch now pods s n key
        = updatePodStatuses fetch now (.ok pods) s key := by
  by_cases hmem : key ∈ (pods.take n).map (·.Name)
  · right
    obtain ⟨p, hp, hname, heq⟩ :=
      applyUpserts_mem_exists fetch now (pods.take n) s key hmem
    have hpp : p ∈ pods := List.take_subset n pods hp
    have hfull : applyUpserts fetch now pods s key
        = some (mkPodStatus fetch now p) := by
      rw [← hname]
      exact applyUpserts_mem_nodup fetch now pods s p hnd hpp
    have hkeymem : key ∈ pods.map (·.Name) := by
      rw [← hname]
      exact List.mem_map_of_mem _ hpp
    show applyUpserts fetch now (pods.take n) s key
        = ((applyUpserts fetch now pods s).prune (pods.map (·.Name))) key
    rw [heq]
    simp [Store.prune, hkeymem, hfull]
  · left
    exact applyUpserts_not_mem fetch now _ s key hmem

/-- Witness for the amended C4: in cycle 2 of the concrete history the
snapshot after the first (only) upsert agrees at `"old-1-x"` with the
pre-cycle store and at `"web-7f8c9d-abcde"` with the cycle's end state. -/
theorem claim_C4_witness :
    (midState fetchAllOk 7 [podRunningA] staleStore 1 "old-1-x"
        = staleStore "old-1-x"
      ∨ midState fetchAllOk 7 [podRunningA] staleStore 1 "old-1-x"
        = updatePodStatuses fetchAllOk 7 (.ok [podRunningA]) staleStore "old-1-x")
    ∧ (midState fetchAllOk 7 [podRunningA] staleStore 1 "web-7f8c9d-abcde"
        = staleStore "web-7f8c9d-abcde"
      ∨ midState fetchAllOk 7 [podRunningA] staleStore 1 "web-7f8c9d-abcde"
        = updatePodStatuses fetchAllOk 7 (.ok [podRunningA]) staleStore
            "web-7f8c9d-abcde") :=
  ⟨claim_C4_per_key_snapshot fetchAllOk 7 [podRunningA] staleStore 1
      "old-1-x" (by decide),
    claim_C4_per_key_snapshot fetchAllOk 7 [podRunningA] staleStore 1
      "web-7f8c9d-abcde" (by decide)⟩

/-- C6: `getPodInfo` succeeds exactly when a response arrived, its status
was 200, its body was read, and the body decoded; otherwise it returns
exactly the one error matching the failure: a connectivity-class error
(`connectError` — the request could not be sent — or `readError` — the
response body could not be retrieved) when the request did not complete,
a status error when the status was not 200, and a structural-decode error
when the body was not the expected encoding. -/
theorem claim_C6_fetch_error_taxonomy (decode : String → Option PodInfo)
    (outcome : HTTPGetOutcome) :
    (∀ info, getPodInfo decode outcome = .ok info
      ↔ ∃ body, outcome = .response 200 (.ok body) ∧ decode body = some info)
    ∧ (∀ msg, getPodInfo decode outcome = .error (.connectError msg)
      ↔ outcome = .connFailure msg)
    ∧ (∀ code, getPodInfo decode outcome = .error (.statusError code)
      ↔ (∃ rr, outcome = .response code rr) ∧ code ≠ 200)
    ∧ (∀ msg, getPodInfo decode outcome = .error (.readError msg)
      ↔ outcome = .response 200 (.error msg))
    ∧ (∀ body, getPodInfo decode outcome = .error (.parseError body)
      ↔ outcome = .response 200 (.ok body) ∧ decode body = none) := by
  match outcome with
  | .connFailure m =>
    refine ⟨fun info => ?_, fun msg => ?_, fun code => ?_, fun msg => ?_,
      fun body => ?_⟩ <;> simp [getPodInfo]
  | .response code rr =>
    by_cases hc : code = 200
    · subst hc
      match rr with
      | .error m =>
        refine ⟨fun info => ?_, fun msg => ?_, fun code => ?_, fun msg => ?_,
          fun body => ?_⟩ <;> simp [getPodInfo]
        exact fun h => h.symm
      | .ok b =>
        match hd : decode b with
        | none =>
          refine ⟨fun info => ?_, fun msg => ?_, fun code => ?_, fun msg => ?_,
            fun body => ?_⟩ <;> simp [getPodInfo, hd]
          · exact fun h => h.symm
          · exact fun h => by rw [← h]; exact hd
        | some i =>
          refine ⟨fun info => ?_, fun msg => ?_, fun code => ?_, fun msg => ?_,
            fun body => ?_⟩ <;> simp [getPodInfo, hd]
          · exact fun h => h.symm
          · rintro rfl
            simp [hd]
    · refine ⟨fun info => ?_, fun msg => ?_, fun code' => ?_, fun msg => ?_,
        fun body => ?_⟩ <;> simp [getPodInfo, hc]
      rintro rfl
      exact fun h => absurd h hc

/-- C5: the `/api/proxy` handler rejects non-POST methods with 405
("Method not allowed"), rejects an undecodable body with 400 ("Invalid
request body") without any network call, surfaces a relay failure as a
500 whose message describes the error, and on relay success writes the
remote status code and body back unmodified. -/
theorem claim_C5_proxy_handling :
    (∀ (m : String) (b : Option ProxyRequestBody)
        (nro : String → String → Bool) (d : DoOutcome), m ≠ "POST" →
      handleProxy m b nro d = (httpError "Method not allowed" 405, false))
    ∧ (∀ (nro : String → String → Bool) (d : DoOutcome),
      handleProxy "POST" none nro d
        = (httpError "Invalid request body" 400, false))
    ∧ (∀ (req : ProxyRequestBody) (nro : String → String → Bool)
        (msg : String), nro req.method req.url = true →
      handleProxy "POST" (some req) nro (.failure msg)
        = (httpError ("Failed to call pod API: " ++ msg) 500, true))
    ∧ (∀ (req : ProxyRequestBody) (nro : String → String → Bool)
        (statusCode : Nat) (body : String), nro req.method req.url = true →
      handleProxy "POST" (some req) nro (.response statusCode body)
        = ({ status := statusCode, body := body }, true)) := by
  refine ⟨fun m b nro d hm => ?_, fun nro d => ?_,
    fun req nro msg hok => ?_, fun req nro statusCode body hok => ?_⟩
  · simp [handleProxy, hm]
  · simp [handleProxy]
  · simp [handleProxy, hok]
  · simp [handleProxy, hok]

/-- Witness for C5: each branch evaluated at a concrete request. -/
theorem claim_C5_witness :
    handleProxy "GET" none (fun _ _ => true) (.response 200 "ok")
      = (httpError "Method not allowed" 405, false)
    ∧ handleProxy "POST" none (fun _ _ => true) (.response 200 "ok")
      = (httpError "Invalid request body" 400, false)
    ∧ handleProxy "POST"
        (some { url := "http://10.0.0.5:8080/api/probes/readiness/fail",
                method := "POST" })
        (fun _ _ => true) (.failure "context deadline exceeded")
      = (httpError "Failed to call pod API: context deadline exceeded" 500,
          true)
    ∧ handleProxy "POST"
        (some { url := "http://10.0.0.5:8080/api/probes/readiness/fail",
                method := "POST" })
        (fun _ _ => true) (.response 200 "toggled")
      = ({ status := 200, body := "toggled" }, true) :=
  ⟨claim_C5_proxy_handling.1 "GET" none (fun _ _ => true)
      (.response 200 "ok") (by decide),
    claim_C5_proxy_handling.2.1 (fun _ _ => true) (.response 200 "ok"),
    claim_C5_proxy_handling.2.2.1
      { url := "http://10.0.0.5:8080/api/probes/readiness/fail",
        method := "POST" }
      (fun _ _ => true) "context deadline exceeded" rfl,
    claim_C5_proxy_handling.2.2.2
      { url := "http://10.0.0.5:8080/api/probes/readiness/fail",
        method := "POST" }
      (fun _ _ => true) 200 "toggled" rfl⟩

/-- C10: if the body of a POST to `/api/proxy` decodes but
`http.NewRequest` rejects the decoded method/url pair, the handler
answers 500 "Failed to create request" — a server error, not a client
error — and performs no network call (`client.Do` is never reached); the
handler touches no store state at all (its embedding takes no `Store`). -/
theorem claim_C10_proxy_invalid_target (req : ProxyRequestBody)
    (nro : String → String → Bool) (d : DoOutcome)
    (h : nro req.method req.url = false) :
    handleProxy "POST" (some req) nro d
      = (httpError "Failed to create request" 500, false) := by
  simp [handleProxy, h]

/-- Witness for C10: a decoded body whose url has no scheme, with
`http.NewRequest` failing on it. -/
theorem claim_C10_witness :
    handleProxy "POST" (some { url := "://bad url", method := "P O S T" })
      (fun _ _ => false) (.response 200 "ok")
      = (httpError "Failed to create request" 500, false) :=
  claim_C10_proxy_invalid_target
    { url := "://bad url", method := "P O S T" }
    (fun _ _ => false) (.response 200 "ok") rfl

end ProbeMonitor
